import Mathlib

/-!
Verification of the two scripts in this repository against their
natural-language specification.

* `src/sankey/sankey.py` — `plot_sankey`: builds a Sankey diagram from a
  table of (source, target, value) rows.
* `src/ferc/main.py` — a Selenium-driven downloader for FERC EQR
  transaction reports: report-period computation, element/download
  polling loops, seller-list resolution, the per-seller submission loop,
  and the CLI entry point.

Pure functions are translated directly; the polling loops are modelled
as scans over a finite trace of observations (one entry per poll tick,
the trace length being determined by the timeout and the fixed
0.5-time-unit sleep); code that can raise is modelled with `Option` /
`Except`, a bare `except` becoming a total function.
-/

namespace Sankey

/-- One row of the flow table: (source name, target name, numeric value).
Embeds a row of the pandas DataFrame handed to `plot_sankey` with the
default column names. -/
structure Row where
  source : String
  target : String
  value : Int
deriving DecidableEq, Repr

/-- Lexicographic comparison of two character lists by code point —
the string order pandas sorts group keys with. -/
def charListLe : List Char → List Char → Bool
  | [], _ => true
  | _ :: _, [] => false
  | a :: as, b :: bs =>
    if a.toNat < b.toNat then true
    else if b.toNat < a.toNat then false
    else charListLe as bs

/-- String comparison by code points. -/
def strLe (a b : String) : Bool :=
  charListLe a.toList b.toList

/-- Insertion into a sorted list of strings, ascending. -/
def insertSorted (s : String) : List String → List String
  | [] => [s]
  | t :: ts => if strLe s t then s :: t :: ts else t :: insertSorted s ts

/-- Ascending sort of a list of strings (insertion sort). -/
def sortStrings : List String → List String
  | [] => []
  | s :: ss => insertSorted s (sortStrings ss)

/-- The index of a `df.groupby(col)` result: the distinct values of the
column, in the groupby's ascending key order.  Embeds
`df.groupby(source_col)[value_col].sum().index.tolist()` — the per-group
sums are computed by the source but only the index is used. -/
def groupKeys (l : List String) : List String :=
  sortStrings l.dedup

/-- Embeds `source_nodes = source_totals.index.tolist()` in `plot_sankey`. -/
def source_nodes (df : List Row) : List String :=
  groupKeys (df.map Row.source)

/-- Embeds `target_nodes = target_totals.index.tolist()` in `plot_sankey`. -/
def target_nodes (df : List Row) : List String :=
  groupKeys (df.map Row.target)

/-- Embeds `nodes = source_nodes + target_nodes` in `plot_sankey`: plain list
concatenation, no deduplication across the two segments. -/
def nodes (df : List Row) : List String :=
  source_nodes df ++ target_nodes df

/-- Embeds the dict `source_indices`, built by enumerating `nodes`: a dict
comprehension in which a later occurrence of a name overwrites an
earlier one, so lookup yields the index of the LAST occurrence of the
name in `nodes` (`none` models a `KeyError`). -/
def nodeIndex : List String → String → Option Nat
  | [], _ => none
  | x :: xs, n =>
    match nodeIndex xs n with
    | some j => some (j + 1)
    | none => if x = n then some 0 else none

/-- The link index lists of `plot_sankey`:
`source = [source_indices[src] for src in df[source_col]]` and
`target = [source_indices[tgt] for tgt in df[target_col]]`, paired up
per row together with the row's value. -/
def links (df : List Row) : List (Option Nat × Option Nat × Int) :=
  df.map fun r => (nodeIndex (nodes df) r.source, nodeIndex (nodes df) r.target, r.value)

/-- The default link color `rgba(0, 0, 255, 0.4)`. -/
def blueColor : String := "rgba(0, 0, 255, 0.4)"

/-- The highlight link color `rgba(255, 0, 0, 0.8)`. -/
def redColor : String := "rgba(255, 0, 0, 0.8)"

/-- Python truthiness of the optional highlight parameters (default
`None`): `None` and the empty string are falsy. -/
def truthyStr : Option String → Bool
  | none => false
  | some s => s ≠ ""

/-- Overlay of the highlight mask over the color list: embeds
`for i, should_highlight in enumerate(highlight_mask): if
should_highlight: link_colors[i] = red`. -/
def applyMask : List Bool → List String → List String
  | [], cs => cs
  | _ :: _, [] => []
  | b :: bs, c :: cs => (if b then redColor else c) :: applyMask bs cs

/-- The list `link_colors` as computed by `plot_sankey`: a list of
`rgba(0, 0, 255, 0.4)` of the table's length, overwritten at position
`i` with `rgba(255, 0, 0, 0.8)` whenever row `i` matches the highlight
pair — but only when `highlight_source and highlight_target` is truthy. -/
def link_colors (df : List Row) (hs ht : Option String) : List String :=
  let base := List.replicate df.length blueColor
  if truthyStr hs && truthyStr ht then
    applyMask (df.map fun r => some r.source = hs ∧ some r.target = ht : List Bool) base
  else base

end Sankey

namespace Ferc

/-- Python `s.endswith(suffix)`. -/
def strEndsWith (s suffixStr : String) : Bool :=
  suffixStr.toList.isSuffixOf s.toList

/-- Whether a directory entry is a partial-download artifact:
`f.endswith('.crdownload') or f.endswith('.tmp')`. -/
def isTempDownload (f : String) : Bool :=
  strEndsWith f ".crdownload" || strEndsWith f ".tmp"

/-- One poll of the download directory inside `_wait_for_download`:
`before` is the listing taken on entry, `cur` the listing at this tick.
The poll succeeds when `new_files` (set difference) is non-empty and
none of the new files ends in `.crdownload` or `.tmp`. -/
def downloadPollOk (before cur : List String) : Bool :=
  let new_files := cur.filter fun f => !before.contains f
  let temp_downloads := new_files.filter isTempDownload
  !new_files.isEmpty && temp_downloads.isEmpty

/-- Embeds `_wait_for_download`, with the while-loop's successive directory
listings abstracted as the finite trace `polls` (one entry per
0.5-time-unit tick until the 45-time-unit deadline).  Returns `true` at
the first tick whose poll succeeds, `false` when the trace is exhausted
(the timeout elapsed). -/
def wait_for_download (before : List String) : List (List String) → Bool
  | [] => false
  | cur :: rest =>
    if downloadPollOk before cur then true else wait_for_download before rest

/-- The state of the element a `find_element` call returned inside
`wait_for_element_to_be_active`: displayed flag, enabled flag, and the
value of its `class` attribute (`none` when the attribute is absent, in
which case the `in` test raises and the bare `except` swallows it). -/
structure ElemState where
  displayed : Bool
  enabled : Bool
  cls : Option String
deriving DecidableEq, Repr

/-- Python's `needle in haystack` on strings: substring containment. -/
def strContains (haystack needle : String) : Bool :=
  decide (needle.toList <:+: haystack.toList)

/-- Whether a single poll of `wait_for_element_to_be_active` returns:
the lookup found an element (`some e`) that is displayed, enabled, and
whose class attribute does not contain `aspNetDisabled`.  A raising
lookup (`none`) or a missing class attribute is swallowed by the bare
`except` and counts as not found. -/
def elemPollOk : Option ElemState → Bool
  | none => false
  | some e =>
    match e.cls with
    | none => false
    | some c => e.displayed && e.enabled && !(strContains c "aspNetDisabled")

/-- Embeds `wait_for_element_to_be_active`, with the while-loop's successive
lookup attempts abstracted as the finite trace `polls`.  Returns the
element of the first successful poll, or `none` when the trace is
exhausted (the timeout elapsed) — it never raises. -/
def wait_for_element_to_be_active : List (Option ElemState) → Option ElemState
  | [] => none
  | p :: rest =>
    if elemPollOk p then p else wait_for_element_to_be_active rest

/-! ### Dates and `determine_report_period` -/

/-- A calendar date as `datetime.strptime(s, "%m/%d/%Y")` produces it
(the time-of-day part is midnight and never consulted). -/
structure Date where
  year : Nat
  month : Nat
  day : Nat
deriving DecidableEq, Repr

/-- Leap year rule of the proleptic Gregorian calendar (Python
`datetime`). -/
def isLeap (y : Nat) : Bool :=
  y % 4 = 0 && (y % 100 ≠ 0 || y % 400 = 0)

/-- Length of a month, as `datetime`'s day-range validation uses it. -/
def daysInMonth (y m : Nat) : Nat :=
  if m = 2 then (if isLeap y then 29 else 28)
  else if m = 4 || m = 6 || m = 9 || m = 11 then 30
  else 31

/-- Split a character list at every `/`, keeping empty pieces, as the
regex `strptime` compiles for `"%m/%d/%Y"` segments the input. -/
def splitSlash : List Char → List (List Char)
  | [] => [[]]
  | c :: cs =>
    let r := splitSlash cs
    if c = '/' then [] :: r
    else
      match r with
      | [] => [[c]]
      | p :: ps => (c :: p) :: ps

/-- The numeric value of a list of decimal digits; `none` when a
non-digit occurs or the list is empty. -/
def digitsToNat : List Char → Option Nat
  | [] => none
  | cs => go 0 cs
where
  go (acc : Nat) : List Char → Option Nat
    | [] => some acc
    | c :: cs => if c.isDigit then go (acc * 10 + (c.toNat - 48)) cs else none

/-- Embeds `datetime.strptime(s, "%m/%d/%Y")`: the month field is 1–2 digits in
1..12, the day field 1–2 digits, the year field exactly 4 digits, the
separators literal `/`, nothing before or after; the constructed date
must be a valid calendar date with year ≥ 1 (`datetime.MINYEAR`).
`none` models the `ValueError` raised on any mismatch. -/
def parseMDY (s : String) : Option Date :=
  match splitSlash s.toList with
  | [mcs, dcs, ycs] =>
    match digitsToNat mcs, digitsToNat dcs, digitsToNat ycs with
    | some m, some d, some y =>
      if mcs.length ≤ 2 && dcs.length ≤ 2 && ycs.length = 4 &&
         1 ≤ m && m ≤ 12 && 1 ≤ d && 1 ≤ y && d ≤ daysInMonth y m then
        some ⟨y, m, d⟩
      else none
    | _, _, _ => none
  | _ => none

/-- Serial day number of a civil date (days since 1970-01-01, negative
before), the arithmetic `datetime` subtraction works with. -/
def daysFromCivil (dt : Date) : Int :=
  let y : Int := if dt.month ≤ 2 then (dt.year : Int) - 1 else (dt.year : Int)
  let era : Int := Int.fdiv y 400
  let yoe : Int := y - era * 400
  let mp : Int := Int.emod ((dt.month : Int) + 9) 12
  let doy : Int := Int.fdiv (153 * mp + 2) 5 + (dt.day : Int) - 1
  let doe : Int := yoe * 365 + Int.fdiv yoe 4 - Int.fdiv yoe 100 + doy
  era * 146097 + doe - 719468

/-- The civil date of a serial day number (inverse of `daysFromCivil`). -/
def civilFromDays (z0 : Int) : Date :=
  let z := z0 + 719468
  let era := Int.fdiv z 146097
  let doe := z - era * 146097
  let yoe := Int.fdiv (doe - Int.fdiv doe 1460 + Int.fdiv doe 36524 - Int.fdiv doe 146096) 365
  let y := yoe + era * 400
  let doy := doe - (365 * yoe + Int.fdiv yoe 4 - Int.fdiv yoe 100)
  let mp := Int.fdiv (5 * doy + 2) 153
  let d := doy - Int.fdiv (153 * mp + 2) 5 + 1
  let m := if mp < 10 then mp + 3 else mp - 9
  ⟨(if m ≤ 2 then y + 1 else y).toNat, m.toNat, d.toNat⟩

/-- Embeds `start_dt + (end_dt - start_dt) / 2` on two midnight datetimes: the
difference is a whole number of days `d`, its halving is exact in
microseconds (`d * 43200` seconds), and adding it to midnight lands on
the day `start + ⌊d / 2⌋` (at noon when `d` is odd). -/
def midpointDate (s e : Date) : Date :=
  let sd := daysFromCivil s
  let ed := daysFromCivil e
  civilFromDays (sd + Int.fdiv (ed - sd) 2)

/-- The quarter-label if-chain of `determine_report_period`, applied to
the midpoint's year and month: `f"Q1, Jan-Mar {year}"` for months 1–3,
and so on, the final `else` catching months 10–12. -/
def quarterLabel (year month : Nat) : String :=
  if 1 ≤ month ∧ month ≤ 3 then "Q1, Jan-Mar " ++ toString year
  else if 4 ≤ month ∧ month ≤ 6 then "Q2, Apr-Jun " ++ toString year
  else if 7 ≤ month ∧ month ≤ 9 then "Q3, Jul-Sep " ++ toString year
  else "Q4, Oct-Dec " ++ toString year

/-- Embeds `determine_report_period(start_date, end_date)`: parse both dates,
take the midpoint of the range, and label its quarter.  `none` models
the `ValueError` propagated when either `strptime` call fails. -/
def determine_report_period (start_date end_date : String) : Option String :=
  match parseMDY start_date, parseMDY end_date with
  | some s, some e =>
    let mid := midpointDate s e
    some (quarterLabel mid.year mid.month)
  | _, _ => none

/-! ### Seller-list resolution (step 9 of `download_transaction_data`) -/

/-- Python truthiness of `s.strip()`: the string has a non-whitespace
character. -/
def nonBlank (s : String) : Bool :=
  s.toList.any fun c => !c.isWhitespace

/-- Embeds `[option.text for option in select.options if option.text.strip()]`:
the selector's option texts with the blank ones dropped. -/
def nonBlankOptions (options : List String) : List String :=
  options.filter nonBlank

/-- The seller list when the seller dropdown was found by its known
identifier (the primary path): every non-blank option for the `"all"`
sentinel, otherwise the single requested name — taken verbatim, with no
check that it occurs among the options. -/
def sellersFromDropdown (requested : String) (options : List String) : List String :=
  if requested = "all" then nonBlankOptions options else [requested]

/-- Embeds `sellers = [seller] if seller != "all" else ["Default Seller"]`: the
default used when no seller dropdown could be found at all. -/
def sellersNoDropdown (requested : String) : List String :=
  if requested ≠ "all" then [requested] else ["Default Seller"]

/-- One candidate selector of the fallback scan (a `select` whose id
contains `Seller`): non-blank options for `"all"`; a present requested
name stands alone; an absent one falls back to `[options[0]]` of the
non-blank list — whose `IndexError` on an empty list is swallowed by
the scan's `except` (`none`). -/
def sellersFromScan (requested : String) (options : List String) : Option (List String) :=
  let opts := nonBlankOptions options
  if requested = "all" then some opts
  else if requested ∈ opts then some [requested]
  else
    match opts with
    | [] => none
    | o :: _ => some [o]

/-- The whole fallback scan: candidates are tried in page order; the
first that yields a list without raising ends the scan (`break`), and an
empty final list — no candidate worked, or `"all"` met only blank
options — falls back to `sellersNoDropdown`. -/
def sellersScan (requested : String) : List (List String) → List String
  | [] => sellersNoDropdown requested
  | options :: rest =>
    match sellersFromScan requested options with
    | some [] => sellersNoDropdown requested
    | some sellers => sellers
    | none => sellersScan requested rest

/-! ### The per-seller loop and the operation's catch-all -/

/-- The outcome of one iteration of the per-seller loop: the inner
seller-selection `try` failed (`continue`, nothing counted); or the
iteration reached `_wait_for_download`, whose boolean is recorded; or
an uncaught error was trapped by the iteration's own `except`
(screenshot `seller_error_{index}.png`, loop continues). -/
inductive SellerStep where
  | selectError
  | ok (downloaded : Bool)
  | raised
deriving DecidableEq, Repr

/-- The counter `success_count` after the loop: one per iteration whose
`_wait_for_download` returned true. -/
def successCount : List SellerStep → Nat
  | [] => 0
  | .ok true :: rest => successCount rest + 1
  | .ok false :: rest => successCount rest
  | .selectError :: rest => successCount rest
  | .raised :: rest => successCount rest

/-- The return value and error handling of `download_transaction_data`:
its whole body sits in one `try`.  A body that completes carries the
seller-loop outcomes, and the function returns `success_count > 0`;
a body that raises lands in the `except`, which captures
`final_error.png` and returns `False`.  The pair is
(returned boolean, whether `final_error.png` was captured). -/
def download_transaction_data : Except Unit (List SellerStep) → Bool × Bool
  | .ok steps => (successCount steps > 0, false)
  | .error _ => (false, true)

/-! ### The CLI entry point `main` -/

/-- The parameters `main` resolves before building the downloader.
`useCwd` records that the download directory is `os.getcwd()`. -/
structure Params where
  start_date : String
  end_date : String
  seller : String
  authority : String
  useCwd : Bool
  headless : Bool
deriving DecidableEq, Repr

/-- Two-digit zero padding of `strftime`'s `%m` / `%d`. -/
def pad2 (n : Nat) : String :=
  if n < 10 then "0" ++ toString n else toString n

/-- Four-digit zero padding of `strftime`'s `%Y`. -/
def pad4 (n : Nat) : String :=
  if n < 10 then "000" ++ toString n
  else if n < 100 then "00" ++ toString n
  else if n < 1000 then "0" ++ toString n
  else toString n

/-- Embeds `dt.strftime("%m/%d/%Y")`. -/
def formatMDY (dt : Date) : String :=
  pad2 dt.month ++ "/" ++ pad2 dt.day ++ "/" ++ pad4 dt.year

/-- The `--default` branch of `main`:
`first_day = datetime(today.year, ((today.month-1)//3)*3+1, 1)` as the
start date, today as the end date, seller `"all"`, authority `"CISO"`,
the current working directory, headless off. -/
def defaultParams (today : Date) : Params where
  start_date := formatMDY ⟨today.year, ((today.month - 1) / 3) * 3 + 1, 1⟩
  end_date := formatMDY today
  seller := "all"
  authority := "CISO"
  useCwd := true
  headless := false

/-- One re-prompting date loop of interactive mode: consume console
lines until one parses as `%m/%d/%Y`; `none` models the `EOFError` of
an exhausted stdin. -/
def promptDate : List String → Option (String × List String)
  | [] => none
  | s :: rest => if (parseMDY s).isSome then some (s, rest) else promptDate rest

/-- Embeds `value or default` for the blank-means-default prompts. -/
def orDefault (v d : String) : String :=
  if v = "" then d else v

/-- Python `s.lower()` (ASCII case folding suffices here). -/
def lowerStr (s : String) : String :=
  ⟨s.toList.map Char.toLower⟩

/-- Parameter resolution of `main`: with `--default` anywhere in the
argument list, the computed defaults and an untouched stdin; otherwise
the interactive prompts in source order (start date and end date each
re-prompted until they parse, seller blank ⇒ `"all"`, authority blank ⇒
`"CISO"`, directory blank ⇒ current directory, headless exactly on a
lower-cased `"y"`).  The returned list is what is left of stdin. -/
def resolveParams (argv : List String) (today : Date) (stdin : List String) :
    Option (Params × List String) :=
  if "--default" ∈ argv then some (defaultParams today, stdin)
  else
    match promptDate stdin with
    | none => none
    | some (sd, rest1) =>
      match promptDate rest1 with
      | none => none
      | some (ed, rest2) =>
        match rest2 with
        | sellerIn :: authorityIn :: dirIn :: headlessIn :: rest =>
          some ({ start_date := sd
                  end_date := ed
                  seller := orDefault sellerIn "all"
                  authority := orDefault authorityIn "CISO"
                  useCwd := dirIn = ""
                  headless := lowerStr headlessIn = "y" }, rest)
        | _ => none

end Ferc

/-! ## Lemmas about the renderer's node bookkeeping -/

namespace Sankey

theorem nodeIndex_getElem : ∀ {l : List String} {n : String} {j : Nat},
    nodeIndex l n = some j → l[j]? = some n := by
  intro l
  induction l with
  | nil => intro n j h; simp [nodeIndex] at h
  | cons x xs ih =>
    intro n j h
    unfold nodeIndex at h
    cases hrec : nodeIndex xs n with
    | some j' =>
      rw [hrec] at h
      cases h
      simpa using ih hrec
    | none =>
      rw [hrec] at h
      by_cases hx : x = n
      · rw [if_pos hx] at h
        cases h
        simpa using hx
      · rw [if_neg hx] at h
        cases h

theorem nodeIndex_lt_length {l : List String} {n : String} {j : Nat}
    (h : nodeIndex l n = some j) : j < l.length := by
  have := nodeIndex_getElem h
  by_contra hj
  rw [List.getElem?_eq_none (by omega)] at this
  cases this

theorem nodeIndex_isSome_of_mem : ∀ {l : List String} {n : String},
    n ∈ l → ∃ j, nodeIndex l n = some j := by
  intro l
  induction l with
  | nil => intro n h; cases h
  | cons x xs ih =>
    intro n h
    unfold nodeIndex
    cases hrec : nodeIndex xs n with
    | some j' => exact ⟨j' + 1, rfl⟩
    | none =>
      rcases List.mem_cons.mp h with hx | hxs
      · exact ⟨0, by rw [if_pos hx.symm]⟩
      · rcases ih hxs with ⟨j, hj⟩
        rw [hj] at hrec
        cases hrec

theorem nodeIndex_append_right : ∀ (a : List String) {b : List String} {n : String} {j : Nat},
    nodeIndex b n = some j → nodeIndex (a ++ b) n = some (a.length + j) := by
  intro a
  induction a with
  | nil => intro b n j h; simpa using h
  | cons x xs ih =>
    intro b n j h
    show nodeIndex (x :: (xs ++ b)) n = _
    unfold nodeIndex
    rw [ih h]
    simp [Nat.add_assoc, Nat.add_comm j 1]

theorem mem_insertSorted {a b : String} : ∀ {l : List String},
    a ∈ insertSorted b l ↔ a = b ∨ a ∈ l := by
  intro l
  induction l with
  | nil => simp [insertSorted]
  | cons x xs ih =>
    unfold insertSorted
    by_cases h : strLe b x
    · simp [h]
    · simp only [if_neg h, List.mem_cons, ih]
      tauto

theorem mem_sortStrings {a : String} : ∀ {l : List String},
    a ∈ sortStrings l ↔ a ∈ l := by
  intro l
  induction l with
  | nil => simp [sortStrings]
  | cons x xs ih => simp [sortStrings, mem_insertSorted, ih]

theorem mem_groupKeys {a : String} {l : List String} :
    a ∈ groupKeys l ↔ a ∈ l := by
  simp [groupKeys, mem_sortStrings, List.mem_dedup]

theorem count_insertSorted (a b : String) : ∀ (l : List String),
    (insertSorted b l).count a = l.count a + if b = a then 1 else 0 := by
  intro l
  induction l with
  | nil =>
    by_cases hba : b = a <;>
      simp [insertSorted, List.count_cons, List.count_nil, beq_iff_eq, hba]
  | cons x xs ih =>
    unfold insertSorted
    by_cases h : strLe b x
    · rw [if_pos h]
      simp only [List.count_cons, beq_iff_eq]
    · rw [if_neg h]
      simp only [List.count_cons, beq_iff_eq, ih]
      omega

theorem count_sortStrings (a : String) : ∀ (l : List String),
    (sortStrings l).count a = l.count a := by
  intro l
  induction l with
  | nil => rfl
  | cons x xs ih =>
    show (insertSorted x (sortStrings xs)).count a = _
    rw [count_insertSorted, ih]
    by_cases hxa : x = a <;> simp [List.count_cons, hxa]

theorem count_groupKeys {a : String} {l : List String} (h : a ∈ l) :
    (groupKeys l).count a = 1 := by
  rw [groupKeys, count_sortStrings, List.count_dedup, if_pos h]

theorem applyMask_map_replicate {α : Type} (p : α → Bool) (c : String) :
    ∀ (l : List α),
    applyMask (l.map p) (List.replicate l.length c) =
      l.map fun a => if p a then redColor else c := by
  intro l
  induction l with
  | nil => rfl
  | cons x xs ih =>
    simp only [List.map_cons, List.length_cons, List.replicate_succ, applyMask, ih]

/-- C4: `plot_sankey` builds its node label sequence as the distinct
source names in grouping-key order followed by the distinct target names
in grouping-key order, with no deduplication across the two segments,
and emits one link per table row, with source and target indices
resolved into that concatenated sequence; for the table
[(A,X,10), (B,X,5), (A,Y,3)] with default columns the node sequence is
[A, B, X, Y] and the three links carry indices matching their rows. -/
theorem plot_sankey_nodes_and_links :
    (nodes [⟨"A", "X", 10⟩, ⟨"B", "X", 5⟩, ⟨"A", "Y", 3⟩] = ["A", "B", "X", "Y"] ∧
     links [⟨"A", "X", 10⟩, ⟨"B", "X", 5⟩, ⟨"A", "Y", 3⟩] =
       [(some 0, some 2, 10), (some 1, some 2, 5), (some 0, some 3, 3)]) ∧
    ∀ df : List Row,
      nodes df = groupKeys (df.map Row.source) ++ groupKeys (df.map Row.target) ∧
      (links df).length = df.length ∧
      ∀ r ∈ df,
        (nodeIndex (nodes df) r.source, nodeIndex (nodes df) r.target, r.value) ∈ links df ∧
        ∃ i j, nodeIndex (nodes df) r.source = some i ∧ (nodes df)[i]? = some r.source ∧
               nodeIndex (nodes df) r.target = some j ∧ (nodes df)[j]? = some r.target := by
  refine ⟨⟨by decide, by decide⟩, ?_⟩
  intro df
  refine ⟨rfl, by simp [links], ?_⟩
  intro r hr
  constructor
  · exact List.mem_map_of_mem _ hr
  · have hsrc : r.source ∈ nodes df :=
      List.mem_append_left _ (mem_groupKeys.mpr (List.mem_map_of_mem Row.source hr))
    have htgt : r.target ∈ nodes df :=
      List.mem_append_right _ (mem_groupKeys.mpr (List.mem_map_of_mem Row.target hr))
    obtain ⟨i, hi⟩ := nodeIndex_isSome_of_mem hsrc
    obtain ⟨j, hj⟩ := nodeIndex_isSome_of_mem htgt
    exact ⟨i, j, hi, nodeIndex_getElem hi, hj, nodeIndex_getElem hj⟩

/-- C5 (amended): `plot_sankey` highlights only when both highlight
parameters are supplied and non-empty (Python truthiness); in that case
the row-matching links are translucent red and every other link
translucent blue, and otherwise — in particular when either parameter
is absent — every link is translucent blue. -/
theorem link_colors_highlight_rule (df : List Row) (hs ht : Option String) :
    ((truthyStr hs && truthyStr ht) = true →
      link_colors df hs ht =
        df.map fun r =>
          if some r.source = hs ∧ some r.target = ht then redColor else blueColor) ∧
    ((truthyStr hs && truthyStr ht) = false →
      link_colors df hs ht = List.replicate df.length blueColor) ∧
    (hs = none ∨ ht = none →
      link_colors df hs ht = List.replicate df.length blueColor) := by
  refine ⟨?_, ?_, ?_⟩
  · intro h
    show (if truthyStr hs && truthyStr ht then _ else _) = _
    rw [if_pos h, applyMask_map_replicate]
    simp only [decide_eq_true_eq]
  · intro h
    show (if truthyStr hs && truthyStr ht then _ else _) = _
    rw [h]
    rfl
  · intro h
    rcases h with h | h <;> subst h <;> simp [link_colors, truthyStr]

/-- C5 counterexample: with the highlight pair supplied as the empty
source `""` and target `"X"`, the row `("", "X", 1)` matches the pair
exactly, yet its link is translucent blue, not translucent red — the
claim's "colors exactly those links whose row matches the supplied
pair" fails for a supplied-but-empty member. -/
theorem link_colors_empty_highlight_not_red :
    Row.source ⟨"", "X", 1⟩ = "" ∧ Row.target ⟨"", "X", 1⟩ = "X" ∧
    link_colors [⟨"", "X", 1⟩] (some "") (some "X") = [blueColor] ∧
    blueColor ≠ redColor :=
  ⟨rfl, rfl, by decide, by decide⟩

/-- C6: when a name occurs both as a source and as a target, the node
sequence holds it twice (once per segment), the index dictionary
resolves it to the later, target-segment occurrence, and no link —
whether it references the name as source or as target — ever resolves
to the source-segment copy's position. -/
theorem duplicate_name_resolves_to_target_copy (df : List Row) (n : String)
    (hs : n ∈ df.map Row.source) (ht : n ∈ df.map Row.target) :
    (nodes df).count n = 2 ∧
    ∃ j k, nodeIndex (target_nodes df) n = some j ∧
      nodeIndex (source_nodes df) n = some k ∧
      nodeIndex (nodes df) n = some ((source_nodes df).length + j) ∧
      (nodes df)[k]? = some n ∧ k < (source_nodes df).length ∧
      ∀ lnk ∈ links df, lnk.1 ≠ some k ∧ lnk.2.1 ≠ some k := by
  have hsrcK : n ∈ source_nodes df := mem_groupKeys.mpr hs
  have htgtK : n ∈ target_nodes df := mem_groupKeys.mpr ht
  obtain ⟨j, hj⟩ := nodeIndex_isSome_of_mem htgtK
  obtain ⟨k, hk⟩ := nodeIndex_isSome_of_mem hsrcK
  have hklt : k < (source_nodes df).length := nodeIndex_lt_length hk
  have hnodesk : (nodes df)[k]? = some n := by
    rw [nodes, List.getElem?_append, if_pos hklt]
    exact nodeIndex_getElem hk
  have hfull : nodeIndex (nodes df) n = some ((source_nodes df).length + j) :=
    nodeIndex_append_right _ hj
  have hcount : (nodes df).count n = 2 := by
    rw [nodes, List.count_append, source_nodes, target_nodes,
      count_groupKeys hs, count_groupKeys ht]
  refine ⟨hcount, j, k, hj, hk, hfull, hnodesk, hklt, ?_⟩
  intro lnk hlnk
  obtain ⟨r, hr, rfl⟩ := List.mem_map.mp hlnk
  have resolve : ∀ m : String, m ∈ nodes df →
      nodeIndex (nodes df) m ≠ some k := by
    intro m hm hEq
    by_cases hmn : m = n
    · subst hmn
      rw [hfull] at hEq
      have := Option.some.inj hEq
      omega
    · obtain ⟨p, hp⟩ := nodeIndex_isSome_of_mem hm
      rw [hp] at hEq
      have hpk : p = k := Option.some.inj hEq
      have hget : (nodes df)[p]? = some m := nodeIndex_getElem hp
      rw [hpk, hnodesk] at hget
      exact hmn (Option.some.inj hget).symm
  constructor
  · exact resolve r.source
      (List.mem_append_left _ (mem_groupKeys.mpr (List.mem_map_of_mem Row.source hr)))
  · exact resolve r.target
      (List.mem_append_right _ (mem_groupKeys.mpr (List.mem_map_of_mem Row.target hr)))

/-- Witness for C6 at the one-row table [(A, A, 1)]: the name `A` is
both a source and a target, and the theorem's conclusion holds there. -/
theorem duplicate_name_example :
    (nodes [(⟨"A", "A", 1⟩ : Row)]).count "A" = 2 ∧
    ∃ j k, nodeIndex (target_nodes [(⟨"A", "A", 1⟩ : Row)]) "A" = some j ∧
      nodeIndex (source_nodes [(⟨"A", "A", 1⟩ : Row)]) "A" = some k ∧
      nodeIndex (nodes [(⟨"A", "A", 1⟩ : Row)]) "A" =
        some ((source_nodes [(⟨"A", "A", 1⟩ : Row)]).length + j) ∧
      (nodes [(⟨"A", "A", 1⟩ : Row)])[k]? = some "A" ∧
      k < (source_nodes [(⟨"A", "A", 1⟩ : Row)]).length ∧
      ∀ lnk ∈ links [(⟨"A", "A", 1⟩ : Row)], lnk.1 ≠ some k ∧ lnk.2.1 ≠ some k :=
  duplicate_name_resolves_to_target_copy [⟨"A", "A", 1⟩] "A" (by decide) (by decide)

end Sankey

/-! ## Lemmas and claim theorems for the downloader -/

namespace Ferc

theorem successCount_pos_iff : ∀ steps : List SellerStep,
    0 < successCount steps ↔ ∃ s ∈ steps, s = SellerStep.ok true := by
  intro steps
  induction steps with
  | nil => simp [successCount]
  | cons s rest ih =>
    cases s with
    | selectError => simp [successCount, ih]
    | raised => simp [successCount, ih]
    | ok b =>
      cases b with
      | true => simp [successCount]
      | false => simp [successCount, ih]

theorem filterIsEmptyFalse {α : Type} (p : α → Bool) : ∀ l : List α,
    (l.filter p).isEmpty = false ↔ ∃ a ∈ l, p a = true := by
  intro l
  induction l with
  | nil => simp
  | cons x xs ih =>
    by_cases h : p x = true <;> simp [List.filter_cons, h, ih]

theorem filterIsEmptyTrue {α : Type} (p : α → Bool) : ∀ l : List α,
    (l.filter p).isEmpty = true ↔ ∀ a ∈ l, p a = false := by
  intro l
  induction l with
  | nil => simp
  | cons x xs ih =>
    by_cases h : p x = true <;> simp [List.filter_cons, h, ih]

theorem notContainsTrue (before : List String) (f : String) :
    (!before.contains f) = true ↔ ¬ f ∈ before := by
  simp

theorem downloadPollOk_iff (before cur : List String) :
    downloadPollOk before cur = true ↔
      ((∃ f ∈ cur, ¬ f ∈ before) ∧
        ∀ f ∈ cur, ¬ f ∈ before → isTempDownload f = false) := by
  have hrfl : downloadPollOk before cur =
      (!(cur.filter fun f => !before.contains f).isEmpty &&
        ((cur.filter fun f => !before.contains f).filter isTempDownload).isEmpty) := rfl
  rw [hrfl, Bool.and_eq_true, Bool.not_eq_true', filterIsEmptyFalse, filterIsEmptyTrue]
  constructor
  · rintro ⟨⟨f, hf, hpf⟩, hall⟩
    refine ⟨⟨f, hf, (notContainsTrue before f).mp hpf⟩, ?_⟩
    intro g hg hgnew
    exact hall g (List.mem_filter.mpr ⟨hg, (notContainsTrue before g).mpr hgnew⟩)
  · rintro ⟨⟨f, hf, hfnew⟩, hclean⟩
    refine ⟨⟨f, hf, (notContainsTrue before f).mpr hfnew⟩, ?_⟩
    intro g hg
    have hg' := List.mem_filter.mp hg
    exact hclean g hg'.1 ((notContainsTrue before g).mp hg'.2)

/-- C1 (amended): the download wait returns true at the first poll
whose set of newly appeared files is non-empty and free of
partial-download artifacts — a poll in which a new `.crdownload`/`.tmp`
file coexists with a new complete file does NOT count as success — and
returns false when the trace (the timeout window) is exhausted without
such a poll. -/
theorem wait_for_download_first_clean_poll (before : List String)
    (polls : List (List String)) :
    (wait_for_download before polls = true ↔
      ∃ cur ∈ polls, downloadPollOk before cur = true) ∧
    ∀ cur : List String,
      downloadPollOk before cur = true ↔
        ((∃ f ∈ cur, ¬ f ∈ before) ∧
          ∀ f ∈ cur, ¬ f ∈ before → isTempDownload f = false) := by
  constructor
  · induction polls with
    | nil => simp [wait_for_download]
    | cons cur rest ih =>
      by_cases h : downloadPollOk before cur = true
      · simp [wait_for_download, h]
      · have hstep : wait_for_download before (cur :: rest) =
            wait_for_download before rest := by
          show (if downloadPollOk before cur then true
            else wait_for_download before rest) = _
          rw [if_neg h]
        rw [hstep, ih]
        simp only [List.mem_cons]
        constructor
        · rintro ⟨c, hc, hok⟩
          exact ⟨c, Or.inr hc, hok⟩
        · rintro ⟨c, hc | hc, hok⟩
          · rw [hc] at hok
            exact absurd hok h
          · exact ⟨c, hc, hok⟩
  · intro cur
    exact downloadPollOk_iff before cur

/-- C1 counterexample: the directory was empty on entry; at the first
(and only) poll a complete file `a.csv` has appeared together with a
partial file `b.crdownload`.  The claim says the wait succeeds as soon
as a new non-partial file appears even if new partial files are present
alongside it, but the code returns false. -/
theorem wait_for_download_mixed_poll_returns_false :
    isTempDownload "a.csv" = false ∧
    ("a.csv" ∈ (["a.csv", "b.crdownload"] : List String)) ∧
    ("a.csv" ∉ ([] : List String)) ∧
    wait_for_download [] [["a.csv", "b.crdownload"]] = false := by
  refine ⟨by decide, by decide, by decide, by decide⟩

/-- C2 (amended): with the seller selector found by its known
identifier (the primary path), `"all"` resolves to every non-blank
option and a specific request resolves to the single requested name
taken verbatim, whether or not it occurs among the options; the
requested-if-present / else-first-non-blank-option resolution holds
only on the fallback scan path (and when no selector is found at all,
the list defaults to the requested name, or `"Default Seller"` for
`"all"`). -/
theorem seller_list_resolution (requested : String) (options : List String) :
    (sellersFromDropdown "all" options = nonBlankOptions options) ∧
    (requested ≠ "all" → sellersFromDropdown requested options = [requested]) ∧
    (sellersFromScan "all" options = some (nonBlankOptions options)) ∧
    (requested ≠ "all" → requested ∈ nonBlankOptions options →
      sellersFromScan requested options = some [requested]) ∧
    (requested ≠ "all" → requested ∉ nonBlankOptions options →
      ∀ o rest, nonBlankOptions options = o :: rest →
        sellersFromScan requested options = some [o]) ∧
    sellersNoDropdown "all" = ["Default Seller"] ∧
    (requested ≠ "all" → sellersNoDropdown requested = [requested]) := by
  refine ⟨by simp [sellersFromDropdown], ?_, by simp [sellersFromScan], ?_, ?_,
    by simp [sellersNoDropdown], ?_⟩
  · intro h
    simp [sellersFromDropdown, h]
  · intro h hmem
    simp only [sellersFromScan]
    rw [if_neg h, if_pos hmem]
  · intro h hmem o rest heq
    simp only [sellersFromScan]
    rw [if_neg h, if_neg hmem, heq]
  · intro h
    simp [sellersNoDropdown, h]

/-- C2 counterexample: a specific seller `Beta` absent from the
selector's options `["Alpha"]` on the primary path: the working seller
list is `["Beta"]`, not the selector's first non-blank option
`["Alpha"]` the claim requires. -/
theorem seller_list_primary_ignores_options :
    sellersFromDropdown "Beta" ["Alpha"] = ["Beta"] ∧
    nonBlankOptions ["Alpha"] = ["Alpha"] ∧
    ("Beta" ∉ (["Alpha"] : List String)) ∧
    (["Beta"] : List String) ≠ ["Alpha"] := by
  refine ⟨by decide, by decide, by decide, by decide⟩

end Ferc

namespace Ferc

/-- C3: for every pair of strings parseable as month/day/year dates,
`determine_report_period` returns exactly one string, determined solely
by the year and month of the temporal midpoint of the two dates, and
that string is one of the four fixed quarter labels for the midpoint's
year. -/
theorem determine_report_period_quarter_of_midpoint
    (s e : String) (ds de : Date)
    (hs : parseMDY s = some ds) (he : parseMDY e = some de) :
    determine_report_period s e =
      some (quarterLabel (midpointDate ds de).year (midpointDate ds de).month) ∧
    quarterLabel (midpointDate ds de).year (midpointDate ds de).month ∈
      ["Q1, Jan-Mar " ++ toString (midpointDate ds de).year,
       "Q2, Apr-Jun " ++ toString (midpointDate ds de).year,
       "Q3, Jul-Sep " ++ toString (midpointDate ds de).year,
       "Q4, Oct-Dec " ++ toString (midpointDate ds de).year] := by
  constructor
  · simp [determine_report_period, hs, he]
  · unfold quarterLabel
    split_ifs <;> simp

/-- Witness for C3 at the claim's example: start 01/01/2024 and end
01/31/2024 (midpoint January 16) yield "Q1, Jan-Mar 2024". -/
theorem determine_report_period_q1_example :
    determine_report_period "01/01/2024" "01/31/2024" = some "Q1, Jan-Mar 2024" := by
  have h := determine_report_period_quarter_of_midpoint "01/01/2024" "01/31/2024"
    ⟨2024, 1, 1⟩ ⟨2024, 1, 31⟩ (by decide) (by decide)
  exact h.1.trans (by decide)

/-- C10: `determine_report_period` propagates a parse failure — and
produces no quarter label — whenever either input string does not
match the month/day/year format. -/
theorem determine_report_period_rejects_bad_format (s e : String)
    (h : parseMDY s = none ∨ parseMDY e = none) :
    determine_report_period s e = none := by
  rcases h with h | h
  · cases hpe : parseMDY e <;> simp [determine_report_period, h, hpe]
  · cases hps : parseMDY s <;> simp [determine_report_period, h, hps]

/-- Witness for C10 at the claim's example: the ISO-style string
"2024-01-01" is rejected. -/
theorem determine_report_period_rejects_iso_example :
    determine_report_period "2024-01-01" "01/01/2024" = none :=
  determine_report_period_rejects_bad_format "2024-01-01" "01/01/2024"
    (Or.inl (by decide))

/-- C7: `download_transaction_data` always returns a boolean pair of
outcome and error-artifact flag (the model of its all-enclosing
`try`/`except` is total, so no exception reaches the caller): the
returned flag is true exactly when the body completed and at least one
seller's download wait succeeded; a completed body captures no
`final_error.png`; and a raising body yields false with
`final_error.png` captured. -/
theorem download_transaction_data_returns
    (outcome : Except Unit (List SellerStep)) :
    ((download_transaction_data outcome).1 = true ↔
      ∃ steps, outcome = Except.ok steps ∧ ∃ s ∈ steps, s = SellerStep.ok true) ∧
    (∀ steps, outcome = Except.ok steps →
      download_transaction_data outcome = (decide (0 < successCount steps), false)) ∧
    (∀ u, outcome = Except.error u →
      download_transaction_data outcome = (false, true)) := by
  cases outcome with
  | ok steps =>
    refine ⟨?_, ?_, ?_⟩
    · simp [download_transaction_data, successCount_pos_iff]
    · intro steps' h
      cases h
      rfl
    · intro u h
      simp at h
  | error u =>
    refine ⟨?_, ?_, ?_⟩
    · simp [download_transaction_data]
    · intro steps h
      simp at h
    · intro u' h
      rfl

/-- C8: the element wait never raises: it returns the element of the
first poll that found one simultaneously displayed, enabled and free of
the `aspNetDisabled` class marker; when no poll of the trace succeeds
(no such element within the timeout, or every lookup attempt errored)
it returns the absent sentinel; and its result is always either the
sentinel or a successful poll's element. -/
theorem wait_for_element_to_be_active_spec (polls : List (Option ElemState)) :
    ((∀ p ∈ polls, elemPollOk p = false) →
      wait_for_element_to_be_active polls = none) ∧
    (wait_for_element_to_be_active polls = none ∨
      ∃ p ∈ polls, wait_for_element_to_be_active polls = p ∧ elemPollOk p = true) ∧
    ∀ (i : Nat) (p : Option ElemState), polls[i]? = some p → elemPollOk p = true →
      (∀ (j : Nat) (q : Option ElemState),
        j < i → polls[j]? = some q → elemPollOk q = false) →
      wait_for_element_to_be_active polls = p := by
  induction polls with
  | nil =>
    refine ⟨fun _ => rfl, Or.inl rfl, ?_⟩
    intro i p hget
    simp at hget
  | cons x rest ih =>
    refine ⟨?_, ?_, ?_⟩
    · intro h
      have hx : elemPollOk x = false := h x (List.mem_cons_self x rest)
      show (if elemPollOk x then x else wait_for_element_to_be_active rest) = none
      rw [if_neg (by simp [hx])]
      exact ih.1 fun p hp => h p (List.mem_cons_of_mem x hp)
    · by_cases hx : elemPollOk x = true
      · right
        refine ⟨x, List.mem_cons_self x rest, ?_, hx⟩
        show (if elemPollOk x then x else wait_for_element_to_be_active rest) = x
        rw [if_pos hx]
      · have hstep : wait_for_element_to_be_active (x :: rest) =
            wait_for_element_to_be_active rest := by
          show (if elemPollOk x then x else wait_for_element_to_be_active rest) = _
          rw [if_neg hx]
        rcases ih.2.1 with hnone | ⟨p, hp, heq, hok⟩
        · left
          rw [hstep]
          exact hnone
        · right
          exact ⟨p, List.mem_cons_of_mem x hp, hstep.trans heq, hok⟩
    · intro i p hget hok hbefore
      cases i with
      | zero =>
        simp only [List.getElem?_cons_zero, Option.some.injEq] at hget
        subst hget
        show (if elemPollOk x then x else wait_for_element_to_be_active rest) = x
        rw [if_pos hok]
      | succ i =>
        have h0 : elemPollOk x = false :=
          hbefore 0 x (Nat.succ_pos i) (by simp)
        have hstep : wait_for_element_to_be_active (x :: rest) =
            wait_for_element_to_be_active rest := by
          show (if elemPollOk x then x else wait_for_element_to_be_active rest) = _
          rw [if_neg (by simp [h0])]
        rw [hstep]
        refine ih.2.2 i p (by simpa using hget) hok ?_
        intro j q hj hq
        exact hbefore (j + 1) q (by omega) (by simpa using hq)

/-- C9: with `--default` anywhere in the argument list, `main` computes
start date = first day of the current fiscal quarter (boundaries at
months 1, 4, 7, 10) in MM/DD/YYYY form, end date = today, seller
"all", authority "CISO", the current working directory as download
directory, headless off — and consumes no interactive input. -/
theorem main_default_parameters (argv : List String) (today : Date)
    (stdin : List String) (h : "--default" ∈ argv)
    (h1 : 1 ≤ today.month) (h2 : today.month ≤ 12) :
    resolveParams argv today stdin =
      some ({ start_date := formatMDY ⟨today.year,
                (if today.month ≤ 3 then 1 else if today.month ≤ 6 then 4
                 else if today.month ≤ 9 then 7 else 10), 1⟩,
              end_date := formatMDY today,
              seller := "all", authority := "CISO",
              useCwd := true, headless := false }, stdin) := by
  obtain ⟨y, m, d⟩ := today
  change 1 ≤ m at h1
  change m ≤ 12 at h2
  have harith : ((m - 1) / 3) * 3 + 1 =
      (if m ≤ 3 then 1 else if m ≤ 6 then 4 else if m ≤ 9 then 7 else 10) := by
    interval_cases m <;> rfl
  simp only [resolveParams, if_pos h, defaultParams]
  rw [harith]

/-- Witness for C9 at the claim's example: invoked on the 10th day of
the 2nd month of 2024, the start date is the 1st day of the 1st month
of that year, the end date is today, and stdin is untouched. -/
theorem main_default_feb10_example :
    resolveParams ["--default"] ⟨2024, 2, 10⟩ ["unused prompt answer"] =
      some ({ start_date := "01/01/2024", end_date := "02/10/2024",
              seller := "all", authority := "CISO",
              useCwd := true, headless := false }, ["unused prompt answer"]) := by
  have h := main_default_parameters ["--default"] ⟨2024, 2, 10⟩
    ["unused prompt answer"] (by decide) (by decide) (by decide)
  exact h.trans (by decide)

end Ferc
